import Mathlib

/-!
Verification of the RSAKey core (paramiko `rsakey.py`) against its design
specification.  The key type, its construction paths, wire encoding,
signing/verification wrappers, hashing and private-key decoding are embedded
shallowly below; the Wire Codec and Crypto Provider collaborators are either
modelled from the specification (when their code is not part of the sources)
or taken as parameters constrained only where the specification constrains
them.
-/

namespace Paramiko

/-- A byte string: a list of naturals, each below 256 by construction. -/
abbrev Bytes := List Nat

/-! ## Wire codec

Modelled from the spec: the message-buffer reader/writer lives in
`paramiko/message.py` and `paramiko/util.py`, which are not among the
sources.  The glossary defines the formats: a `string` field is a 4-byte
big-endian length followed by that many bytes; an `mpint` is a
length-prefixed, minimal big-endian integer with a leading zero byte
inserted whenever the most-significant bit would otherwise read as a sign
bit; decoding rejects truncated length-prefixed fields. -/

/-- Minimal big-endian byte representation of a natural number (empty for 0).
The first argument is recursion fuel, always instantiated with the number
itself, which suffices since dividing by 256 strictly decreases. -/
def natToBytesBE : Nat → Nat → List Nat
  | _, 0 => []
  | 0, _ + 1 => []
  | f + 1, n + 1 => natToBytesBE f ((n + 1) / 256) ++ [(n + 1) % 256]

/-- Big-endian interpretation of a byte list as a natural number. -/
def bytesToNatBE (bs : List Nat) : Nat :=
  bs.foldl (fun a b => a * 256 + b) 0

/-- Modelled from the spec: mpint payload of a non-negative integer —
minimal big-endian bytes with a sign-guard zero byte when the top bit
of the leading byte is set. -/
def mpintEncode (n : Nat) : List Nat :=
  match natToBytesBE n n with
  | [] => []
  | b :: bs => if 128 ≤ b then 0 :: b :: bs else b :: bs

/-- Number of bits needed to represent a natural number (0 for 0); fuel
recursion as above, instantiated with the number itself. -/
def bitLengthAux : Nat → Nat → Nat
  | _, 0 => 0
  | 0, _ + 1 => 0
  | f + 1, n + 1 => bitLengthAux f ((n + 1) / 2) + 1

/-- Number of bits needed to represent a natural number (0 for 0). -/
def bitLength (n : Nat) : Nat := bitLengthAux n n

/-- Modelled from the spec: mpint payload of an arbitrary integer.  The
negative case uses minimal two's-complement bytes; the code under
verification only ever encodes the non-negative public numbers. -/
def mpintOfInt (i : Int) : List Nat :=
  if 0 ≤ i then mpintEncode i.toNat
  else
    let L := bitLength (i.natAbs - 1) / 8 + 1
    let v := (i + (2 : Int) ^ (8 * L)).toNat
    let bs := natToBytesBE v v
    List.replicate (L - bs.length) 0 ++ bs

/-- 4-byte big-endian encoding of a length word. -/
def encodeU32 (n : Nat) : List Nat :=
  [n / 2 ^ 24 % 256, n / 2 ^ 16 % 256, n / 2 ^ 8 % 256, n % 256]

/-- Modelled from the spec: `add_string` — append a length-prefixed byte
string field. -/
def addString (payload : Bytes) : Bytes :=
  encodeU32 payload.length ++ payload

/-- Modelled from the spec: `add_mpint` — append a length-prefixed mpint. -/
def addMpint (i : Int) : Bytes :=
  addString (mpintOfInt i)

/-- Read a 4-byte big-endian length word; `none` on truncation. -/
def readU32 : Bytes → Option (Nat × Bytes)
  | a :: b :: c :: d :: rest => some (((a * 256 + b) * 256 + c) * 256 + d, rest)
  | _ => none

/-- Modelled from the spec: read one length-prefixed field (`get_string` /
`get_text` / `get_binary`); truncated fields are rejected. -/
def readString (bs : Bytes) : Option (Bytes × Bytes) :=
  match readU32 bs with
  | none => none
  | some (len, rest) =>
      if len ≤ rest.length then some (rest.take len, rest.drop len) else none

/-- Signed big-endian interpretation of an mpint payload. -/
def mpintDecode (bs : Bytes) : Int :=
  match bs with
  | [] => 0
  | b :: _ =>
      if 128 ≤ b then (bytesToNatBE bs : Int) - 2 ^ (8 * bs.length)
      else (bytesToNatBE bs : Int)

/-- Modelled from the spec: `get_mpint` — read a length-prefixed field and
interpret it as a signed big-endian integer. -/
def readMpint (bs : Bytes) : Option (Int × Bytes) :=
  match readString bs with
  | none => none
  | some (f, rest) => some (mpintDecode f, rest)

/-! ### Codec round-trip lemmas -/

lemma bytesToNatBE_append_singleton (xs : List Nat) (b : Nat) :
    bytesToNatBE (xs ++ [b]) = 256 * bytesToNatBE xs + b := by
  simp [bytesToNatBE, List.foldl_append, Nat.mul_comm]

lemma bytesToNatBE_cons_zero (xs : List Nat) :
    bytesToNatBE (0 :: xs) = bytesToNatBE xs := by
  simp [bytesToNatBE]

lemma bytesToNatBE_natToBytesBE (f n : Nat) (h : n ≤ f) :
    bytesToNatBE (natToBytesBE f n) = n := by
  induction f generalizing n with
  | zero =>
      interval_cases n
      simp [natToBytesBE, bytesToNatBE]
  | succ f ih =>
      match n with
      | 0 => simp [natToBytesBE, bytesToNatBE]
      | m + 1 =>
          have hdiv : (m + 1) / 256 ≤ f := by
            have := Nat.div_lt_self (Nat.succ_pos m) (by norm_num : 1 < 256)
            omega
          rw [natToBytesBE, bytesToNatBE_append_singleton, ih _ hdiv]
          omega

lemma mpintDecode_mpintEncode (n : Nat) :
    mpintDecode (mpintEncode n) = (n : Int) := by
  have hrt := bytesToNatBE_natToBytesBE n n (Nat.le_refl n)
  unfold mpintEncode
  cases hbs : natToBytesBE n n with
  | nil =>
      rw [hbs] at hrt
      simp [mpintDecode, bytesToNatBE] at hrt ⊢
      omega
  | cons b bs =>
      rw [hbs] at hrt
      by_cases hb : 128 ≤ b
      · simp only [hb, if_true]
        rw [mpintDecode]
        have : ¬ (128 ≤ 0) := by omega
        simp only [this, if_false, bytesToNatBE_cons_zero]
        exact_mod_cast hrt
      · simp only [hb, if_false]
        rw [mpintDecode]
        simp only [hb, if_false]
        exact_mod_cast hrt

lemma mpintOfInt_nonneg (i : Int) (h : 0 ≤ i) :
    mpintOfInt i = mpintEncode i.toNat := by
  simp [mpintOfInt, h]

lemma mpintDecode_mpintOfInt (i : Int) (h : 0 ≤ i) :
    mpintDecode (mpintOfInt i) = i := by
  rw [mpintOfInt_nonneg i h, mpintDecode_mpintEncode, Int.toNat_of_nonneg h]

lemma readU32_encodeU32 (n : Nat) (rest : Bytes) (h : n < 2 ^ 32) :
    readU32 (encodeU32 n ++ rest) = some (n, rest) := by
  simp only [encodeU32, List.cons_append, List.nil_append, readU32]
  congr 2
  omega

lemma readString_addString (p : Bytes) (rest : Bytes) (h : p.length < 2 ^ 32) :
    readString (addString p ++ rest) = some (p, rest) := by
  rw [addString, List.append_assoc, readString, readU32_encodeU32 _ _ h]
  simp

lemma readMpint_addMpint (i : Int) (rest : Bytes) (h0 : 0 ≤ i)
    (h : (mpintOfInt i).length < 2 ^ 32) :
    readMpint (addMpint i ++ rest) = some (i, rest) := by
  rw [addMpint, readMpint, readString_addString _ _ h]
  simp [mpintDecode_mpintOfInt i h0]

/-! ## Key model

The Crypto Provider (the `cryptography` library) is an external
collaborator.  Its key handles are represented by the data the source
observes of them: an RSA private key exposes its private numbers, whose
public part is `(e, n)`; an RSA public key exposes `(e, n)` directly.
Provider operations (generate, sign, verify, DER parsing) are taken as
parameters where the source calls them. -/

/-- The numbers of an RSA private key as exposed by the provider: the public
pair `(e, n)` plus private material `d` (stands for all CRT components). -/
structure RSAPrivateNumbers where
  e : Int
  n : Int
  d : Int
deriving DecidableEq

/-- A provider key handle: `rsa.RSAPrivateKey` or an RSA public key. -/
inductive ProviderKey where
  | privKey (pn : RSAPrivateNumbers)
  | pubKey (e n : Int)
deriving DecidableEq

/-- `key.public_key()` on a private handle; identity on a public one. -/
def ProviderKey.toPublic : ProviderKey → ProviderKey
  | .privKey pn => .pubKey pn.e pn.n
  | k => k

/-- Result of the provider's `load_der_private_key`: an RSA private key or a
private key of some other algorithm (what the source's `assert` rules out). -/
inductive LoadedKey where
  | rsaPrivate (pn : RSAPrivateNumbers)
  | otherKeyType
deriving DecidableEq

/-- Padding schemes the provider offers; the source only ever selects
PKCS#1 v1.5. -/
inductive Padding where
  | pkcs1v15
  | pss
deriving DecidableEq

/-- Hash algorithms the provider offers; the source only ever selects
SHA-1. -/
inductive HashAlg where
  | sha1
  | sha256
deriving DecidableEq

/-- The provider's verification failure: `cryptography` raises
`InvalidSignature` for every verification failure, including signature
encodings it cannot process (the collaborator contract in the spec). -/
inductive CryptoError where
  | invalidSignature
deriving DecidableEq

/-- Errors raised by the embedded operations: `SSHException msg` or a failed
`assert`. -/
inductive PError where
  | sshException (msg : String)
  | assertionFailed
deriving DecidableEq

/-- The file-reading and DER-parsing collaborators used by construction:
`_read_private_key` / `_read_private_key_file` (from `paramiko/pkey.py`) and
the provider's `load_der_private_key`.  Streams are abstract handles. -/
structure Collab where
  readPrivateKeyStream : Nat → Option Bytes → Except String Bytes
  readPrivateKeyFile : String → Option Bytes → Except String Bytes
  loadDerPrivateKey : Bytes → Except String LoadedKey

/-- ASCII bytes of the algorithm name "ssh-rsa". -/
def sshRSA : Bytes := [115, 115, 104, 45, 114, 115, 97]

/-- The key object: after construction it holds exactly one provider
handle. -/
structure RSAKey where
  key : ProviderKey
deriving DecidableEq

/-- `RSAKey.public_numbers`: from the private numbers when the handle is
private, else directly from the public handle. -/
def RSAKey.public_numbers (k : RSAKey) : Int × Int :=
  match k.key with
  | .privKey pn => (pn.e, pn.n)
  | .pubKey e n => (e, n)

/-- `RSAKey.get_name`: the constant algorithm identifier. -/
def RSAKey.get_name (_ : RSAKey) : String := "ssh-rsa"

/-- `RSAKey.size`: the provider's `key_size`, the bit length of the
modulus. -/
def RSAKey.size (k : RSAKey) : Nat :=
  bitLength k.public_numbers.2.toNat

/-- `RSAKey.get_bits`. -/
def RSAKey.get_bits (k : RSAKey) : Nat := k.size

/-- `RSAKey.can_sign`: true iff the handle is an RSA private key. -/
def RSAKey.can_sign (k : RSAKey) : Bool :=
  match k.key with
  | .privKey _ => true
  | .pubKey _ _ => false

/-- `RSAKey.asbytes`: algorithm name, then `e`, then `n`, each wire
encoded. -/
def RSAKey.asbytes (k : RSAKey) : Bytes :=
  addString sshRSA ++ addMpint k.public_numbers.1 ++ addMpint k.public_numbers.2

/-- `RSAKey._decode_key`: parse DER bytes with the provider, re-raising its
`ValueError` as `SSHException` with the same text, then assert the result is
an RSA private key. -/
def RSAKey.decode_key (c : Collab) (data : Bytes) : Except PError ProviderKey :=
  match c.loadDerPrivateKey data with
  | .error e => .error (.sshException e)
  | .ok (.rsaPrivate pn) => .ok (.privKey pn)
  | .ok .otherKeyType => .error .assertionFailed

/-- `RSAKey._from_private_key`: read/decrypt the container from a stream,
then decode. -/
def RSAKey.from_private_key (c : Collab) (file_obj : Nat)
    (password : Option Bytes) : Except PError ProviderKey :=
  match c.readPrivateKeyStream file_obj password with
  | .error e => .error (.sshException e)
  | .ok data => RSAKey.decode_key c data

/-- `RSAKey._from_private_key_file`: as above but from a path. -/
def RSAKey.from_private_key_file (c : Collab) (filename : String)
    (password : Option Bytes) : Except PError ProviderKey :=
  match c.readPrivateKeyFile filename password with
  | .error e => .error (.sshException e)
  | .ok data => RSAKey.decode_key c data

/-- `RSAKey.__init__`.  A wire message is its remaining byte content, so
`Message(data)` is `data` itself; reading a truncated field is rejected as
an invalid key per the spec's decoding rules. -/
def RSAKey.init (c : Collab) (msg : Option Bytes) (data : Option Bytes)
    (filename : Option String) (password : Option Bytes)
    (key : Option ProviderKey) (file_obj : Option Nat) : Except PError RSAKey :=
  match file_obj with
  | some fo => (RSAKey.from_private_key c fo password).map RSAKey.mk
  | none =>
  match filename with
  | some fn => (RSAKey.from_private_key_file c fn password).map RSAKey.mk
  | none =>
    let msg : Option Bytes :=
      match msg, data with
      | none, some d => some d
      | m, _ => m
    match key with
    | some k => .ok ⟨k⟩
    | none =>
      match msg with
      | none => .error (.sshException "Key object may not be empty")
      | some m =>
        match readString m with
        | none => .error (.sshException "Invalid key")
        | some (tag, rest) =>
          if tag = sshRSA then
            match readMpint rest with
            | none => .error (.sshException "Invalid key")
            | some (e, rest2) =>
              match readMpint rest2 with
              | none => .error (.sshException "Invalid key")
              | some (n, _) => .ok ⟨.pubKey e n⟩
          else .error (.sshException "Invalid key")

/-- `RSAKey.sign_ssh_data`: the provider signs `data` with PKCS#1 v1.5 over
SHA-1; the result message is the algorithm name then the signature, both
length prefixed. -/
def RSAKey.sign_ssh_data (providerSign : ProviderKey → Bytes → Padding → HashAlg → Bytes)
    (k : RSAKey) (data : Bytes) : Bytes :=
  addString sshRSA ++ addString (providerSign k.key data .pkcs1v15 .sha1)

/-- `RSAKey.verify_ssh_sig`: reject a wrong algorithm tag with `false`,
derive the public key from a private handle, read the signature bytes and
ask the provider to verify with PKCS#1 v1.5 over SHA-1; `InvalidSignature`
becomes `false`, success becomes `true`. -/
def RSAKey.verify_ssh_sig
    (providerVerify : ProviderKey → Bytes → Bytes → Padding → HashAlg → Except CryptoError Unit)
    (k : RSAKey) (data : Bytes) (msg : Bytes) : Bool :=
  match readString msg with
  | none => false
  | some (tag, rest) =>
    if tag = sshRSA then
      match readString rest with
      | none => false
      | some (sig, _) =>
        match providerVerify k.key.toPublic sig data .pkcs1v15 .sha1 with
        | .ok _ => true
        | .error _ => false
    else false

/-- `RSAKey.generate`: ask the provider for a private key with public
exponent 65537 and the requested size; wrap it.  The progress callback is
accepted and ignored. -/
def RSAKey.generate (providerGenerate : Nat → Nat → RSAPrivateNumbers)
    (bits : Nat) (progress_func : Option (Nat → Nat)) : RSAKey :=
  ⟨.privKey (providerGenerate 65537 bits)⟩

/-- `RSAKey.__hash__`: `hash(name)`, folded with `e` and `n` by `*37 + `,
the whole wrapped in a final `hash` — parameterised by the ambient string
and integer hash functions. -/
def RSAKey.hashKey (hashStr : String → Int) (hashInt : Int → Int) (k : RSAKey) : Int :=
  hashInt ((hashStr k.get_name * 37 + hashInt k.public_numbers.1) * 37
    + hashInt k.public_numbers.2)

/-- Modelled from the spec: key equality (`PKey.__eq__` lives in
`paramiko/pkey.py`, not among the sources) — two keys are equal iff their
algorithm names and `(e, n)` pairs are equal. -/
def keyEq (k1 k2 : RSAKey) : Prop :=
  k1.get_name = k2.get_name ∧ k1.public_numbers = k2.public_numbers

instance : DecidablePred fun p : RSAKey × RSAKey => keyEq p.1 p.2 := by
  intro p
  unfold keyEq
  infer_instance

/-! ## Concrete instances used by the closed theorems -/

/-- A concrete collaborator: parsing `[1]` yields an RSA private key,
parsing `[2]` a private key of another algorithm, everything else fails. -/
def collabW : Collab where
  readPrivateKeyStream := fun _ _ => .error "stream unreadable"
  readPrivateKeyFile := fun _ _ => .error "file unreadable"
  loadDerPrivateKey := fun d =>
    if d = [1] then .ok (.rsaPrivate ⟨65537, 201, 42⟩)
    else if d = [2] then .ok .otherKeyType
    else .error "Could not deserialize key data."

/-- A concrete provider verifier accepting exactly the signature `[1]`. -/
def pvW : ProviderKey → Bytes → Bytes → Padding → HashAlg → Except CryptoError Unit :=
  fun _ sig _ _ _ => if sig = [1] then .ok () else .error .invalidSignature

/-- A valid wire blob for the public numbers `(65537, 201)`. -/
def msgGood : Bytes := addString sshRSA ++ (addMpint 65537 ++ (addMpint 201 ++ []))

/-! ## Shared lemma: the from-message construction path -/

lemma init_from_wire (c : Collab) (e n : Int) (rest : Bytes)
    (he : 0 ≤ e) (hn : 0 ≤ n)
    (hle : (mpintOfInt e).length < 2 ^ 32) (hln : (mpintOfInt n).length < 2 ^ 32) :
    RSAKey.init c (some (addString sshRSA ++ (addMpint e ++ (addMpint n ++ rest))))
      none none none none none = .ok ⟨.pubKey e n⟩ := by
  have h7 : (sshRSA : Bytes).length < 2 ^ 32 := by decide
  simp only [RSAKey.init, readString_addString _ _ h7,
    readMpint_addMpint e _ he hle, readMpint_addMpint n _ hn hln, if_pos rfl]
  simp

/-! ## Claim theorems -/

/-- C1: `verify_ssh_sig` returns `false` (never raising) when the first
field of the message is not the algorithm name; otherwise it returns `true`
exactly when the provider accepts the signature bytes over the payload
under PKCS#1 v1.5 / SHA-1, every provider verification failure becoming
`false`.  The return type `Bool` records that no error can propagate. -/
theorem verify_ssh_sig_spec
    (pv : ProviderKey → Bytes → Bytes → Padding → HashAlg → Except CryptoError Unit)
    (k : RSAKey) (data msg : Bytes) :
    (readString msg = none → RSAKey.verify_ssh_sig pv k data msg = false)
    ∧ (∀ tag rest, readString msg = some (tag, rest) → tag ≠ sshRSA →
        RSAKey.verify_ssh_sig pv k data msg = false)
    ∧ (∀ rest, readString msg = some (sshRSA, rest) →
        (∀ sig rest2, readString rest = some (sig, rest2) →
          (RSAKey.verify_ssh_sig pv k data msg = true ↔
            pv k.key.toPublic sig data Padding.pkcs1v15 HashAlg.sha1 = .ok ()))
        ∧ (readString rest = none →
            RSAKey.verify_ssh_sig pv k data msg = false)) := by
  refine ⟨fun h => ?_, fun tag rest h ht => ?_,
    fun rest h => ⟨fun sig rest2 h2 => ?_, fun h2 => ?_⟩⟩
  · simp [RSAKey.verify_ssh_sig, h]
  · simp [RSAKey.verify_ssh_sig, h, ht]
  · cases hpv : pv k.key.toPublic sig data Padding.pkcs1v15 HashAlg.sha1 <;>
      simp [RSAKey.verify_ssh_sig, h, h2, hpv]
  · simp [RSAKey.verify_ssh_sig, h, h2]

/-- C1 witness: at a concrete provider, key, payload and message the
verification succeeds exactly as the theorem dictates. -/
theorem verify_ssh_sig_spec_witness :
    RSAKey.verify_ssh_sig pvW (RSAKey.mk (.pubKey 65537 201)) [2]
      (addString sshRSA ++ addString [1]) = true :=
  (((verify_ssh_sig_spec pvW (RSAKey.mk (.pubKey 65537 201)) [2]
      (addString sshRSA ++ addString [1])).2.2 (addString [1]) rfl).1
    [1] [] rfl).mpr rfl

/-- C2: decoding the bytes produced by `asbytes` succeeds and reproduces a
key with the same algorithm name and the identical `(e, n)` pair. -/
theorem asbytes_roundtrip (c : Collab) (k : RSAKey)
    (he : 0 ≤ k.public_numbers.1) (hn : 0 ≤ k.public_numbers.2)
    (hle : (mpintOfInt k.public_numbers.1).length < 2 ^ 32)
    (hln : (mpintOfInt k.public_numbers.2).length < 2 ^ 32) :
    ∃ k2, RSAKey.init c none (some k.asbytes) none none none none = .ok k2
      ∧ k2.get_name = "ssh-rsa"
      ∧ k2.public_numbers = k.public_numbers := by
  refine ⟨⟨.pubKey k.public_numbers.1 k.public_numbers.2⟩, ?_, rfl, rfl⟩
  have hdm : RSAKey.init c none (some k.asbytes) none none none none
      = RSAKey.init c (some k.asbytes) none none none none none := rfl
  rw [hdm, RSAKey.asbytes, List.append_assoc,
    ← List.append_nil (addMpint k.public_numbers.2)]
  exact init_from_wire c _ _ [] he hn hle hln

/-- C2 witness: the round trip at the concrete public numbers
`(65537, 201)`. -/
theorem asbytes_roundtrip_witness :
    ∃ k2, RSAKey.init collabW none
        (some (RSAKey.mk (.pubKey 65537 201)).asbytes) none none none none = .ok k2
      ∧ k2.get_name = "ssh-rsa"
      ∧ k2.public_numbers = (RSAKey.mk (.pubKey 65537 201)).public_numbers :=
  asbytes_roundtrip collabW (RSAKey.mk (.pubKey 65537 201))
    (by decide) (by decide) (by decide) (by decide)

/-- C3 counterexample: with both a wire message and an explicit key handle
supplied, construction uses the key handle, not the message — the claim's
priority order message > key handle fails at this input. -/
theorem init_priority_counterexample :
    RSAKey.init collabW (some msgGood) none none none
        (some (.pubKey 3 5)) none = .ok ⟨.pubKey 3 5⟩
    ∧ RSAKey.init collabW (some msgGood) none none none none none
        = .ok ⟨.pubKey 65537 201⟩
    ∧ RSAKey.mk (.pubKey 3 5) ≠ RSAKey.mk (.pubKey 65537 201) :=
  ⟨rfl,
   init_from_wire collabW 65537 201 [] (by decide) (by decide) (by decide) (by decide),
   by decide⟩

/-- C3 (amended): the four sources are selected in the priority order
stream > path > explicit key handle > message/raw data: a supplied stream
makes all later sources irrelevant, then a path, then a key handle. -/
theorem init_priority_amended (c : Collab) (m1 m2 d1 d2 : Option Bytes)
    (f1 f2 : Option String) (pw : Option Bytes) (k1 k2 : Option ProviderKey)
    (fo : Nat) (fn : String) (k : ProviderKey) :
    RSAKey.init c m1 d1 f1 pw k1 (some fo) = RSAKey.init c m2 d2 f2 pw k2 (some fo)
    ∧ RSAKey.init c m1 d1 (some fn) pw k1 none
        = RSAKey.init c m2 d2 (some fn) pw k2 none
    ∧ RSAKey.init c m1 d1 none pw (some k) none
        = RSAKey.init c m2 d2 none pw (some k) none := by
  refine ⟨rfl, rfl, ?_⟩
  cases m1 <;> cases d1 <;> cases m2 <;> cases d2 <;> rfl

/-- C4: wire construction fails with "Invalid key" for any first field other
than the algorithm name; with the right tag it reads `e` then `n` and builds
a public-only key that cannot sign. -/
theorem init_wire_validation (c : Collab) (tag body : Bytes) (e n : Int)
    (rest : Bytes) (htag : tag ≠ sshRSA) (hlen : tag.length < 2 ^ 32)
    (he : 0 ≤ e) (hn : 0 ≤ n)
    (hle : (mpintOfInt e).length < 2 ^ 32) (hln : (mpintOfInt n).length < 2 ^ 32) :
    RSAKey.init c (some (addString tag ++ body)) none none none none none
      = .error (.sshException "Invalid key")
    ∧ ∃ k2, RSAKey.init c
          (some (addString sshRSA ++ (addMpint e ++ (addMpint n ++ rest))))
          none none none none none = .ok k2
        ∧ k2.key = .pubKey e n ∧ k2.can_sign = false := by
  constructor
  · simp only [RSAKey.init, readString_addString _ _ hlen, if_neg htag]
  · exact ⟨⟨.pubKey e n⟩, init_from_wire c e n rest he hn hle hln, rfl, rfl⟩

/-- C4 witness: the rejection of the tag `[0]` and the acceptance of
`(e, n) = (3, 5)` at concrete bytes. -/
theorem init_wire_validation_witness :
    RSAKey.init collabW (some (addString [0] ++ [])) none none none none none
      = .error (.sshException "Invalid key")
    ∧ ∃ k2, RSAKey.init collabW
          (some (addString sshRSA ++ (addMpint 3 ++ (addMpint 5 ++ []))))
          none none none none none = .ok k2
        ∧ k2.key = .pubKey 3 5 ∧ k2.can_sign = false :=
  init_wire_validation collabW [0] [] 3 5 [] (by decide) (by decide)
    (by decide) (by decide) (by decide) (by decide)

/-- C5: `generate` hands the fixed exponent 65537 and the requested size to
the provider and wraps the result as a private-state key: it can sign, its
public exponent is 65537, its size and bit count equal the request, and the
progress callback never influences the result. -/
theorem generate_spec (gen : Nat → Nat → RSAPrivateNumbers) (bits : Nat)
    (pf : Option (Nat → Nat))
    (hge : (gen 65537 bits).e = 65537)
    (hgn : bitLength (gen 65537 bits).n.toNat = bits) :
    (RSAKey.generate gen bits pf).can_sign = true
    ∧ (RSAKey.generate gen bits pf).public_numbers.1 = 65537
    ∧ (RSAKey.generate gen bits pf).size = bits
    ∧ (RSAKey.generate gen bits pf).get_bits = bits
    ∧ ∀ pf2, RSAKey.generate gen bits pf2 = RSAKey.generate gen bits pf := by
  refine ⟨rfl, ?_, ?_, ?_, fun _ => rfl⟩ <;>
    simp [RSAKey.generate, RSAKey.public_numbers, RSAKey.size, RSAKey.get_bits,
      hge, hgn]

/-- C5 witness: a concrete provider honouring the request at 4 bits. -/
theorem generate_spec_witness :
    (RSAKey.generate (fun e _ => ⟨e, 8, 1⟩) 4 none).can_sign = true
    ∧ (RSAKey.generate (fun e _ => ⟨e, 8, 1⟩) 4 none).public_numbers.1 = 65537
    ∧ (RSAKey.generate (fun e _ => ⟨e, 8, 1⟩) 4 none).size = 4
    ∧ (RSAKey.generate (fun e _ => ⟨e, 8, 1⟩) 4 none).get_bits = 4
    ∧ ∀ pf2, RSAKey.generate (fun e _ => ⟨e, 8, 1⟩) 4 pf2
        = RSAKey.generate (fun e _ => ⟨e, 8, 1⟩) 4 none :=
  generate_spec (fun e _ => ⟨e, 8, 1⟩) 4 none (by decide) (by decide)

/-- C6: two keys are equal iff their algorithm names and `(e, n)` pairs
agree; the hash is the order-sensitive combination of the name hash and the
two number hashes; keys with the same public identity are equal and
hash-equal regardless of private material. -/
theorem eq_iff_and_hash (hs : String → Int) (hi : Int → Int) (k1 k2 : RSAKey) :
    (keyEq k1 k2 ↔ k1.get_name = k2.get_name ∧ k1.public_numbers = k2.public_numbers)
    ∧ RSAKey.hashKey hs hi k1
        = hi ((hs k1.get_name * 37 + hi k1.public_numbers.1) * 37
            + hi k1.public_numbers.2)
    ∧ (k1.public_numbers = k2.public_numbers →
        keyEq k1 k2 ∧ RSAKey.hashKey hs hi k1 = RSAKey.hashKey hs hi k2) := by
  refine ⟨Iff.rfl, rfl, fun h => ⟨⟨rfl, h⟩, ?_⟩⟩
  simp [RSAKey.hashKey, RSAKey.get_name, h]

/-- C6 witness: a private and a public key with the same `(65537, 201)` are
equal and hash-equal under concrete hash functions. -/
theorem eq_iff_and_hash_witness :
    keyEq (RSAKey.mk (.privKey ⟨65537, 201, 42⟩)) (RSAKey.mk (.pubKey 65537 201))
    ∧ RSAKey.hashKey (fun _ => 7) (fun i => i)
        (RSAKey.mk (.privKey ⟨65537, 201, 42⟩))
      = RSAKey.hashKey (fun _ => 7) (fun i => i)
        (RSAKey.mk (.pubKey 65537 201)) :=
  (eq_iff_and_hash (fun _ => 7) (fun i => i)
    (RSAKey.mk (.privKey ⟨65537, 201, 42⟩))
    (RSAKey.mk (.pubKey 65537 201))).2.2 (by decide)

/-- C7: `_decode_key` turns every provider parse failure into an
`SSHException` carrying the provider's text, accepts a parsed RSA private
key, and fails the assertion on any other parsed key type. -/
theorem decode_key_spec (c : Collab) (data : Bytes) :
    (∀ e, c.loadDerPrivateKey data = .error e →
        RSAKey.decode_key c data = .error (.sshException e))
    ∧ (∀ pn, c.loadDerPrivateKey data = .ok (.rsaPrivate pn) →
        RSAKey.decode_key c data = .ok (.privKey pn))
    ∧ (c.loadDerPrivateKey data = .ok .otherKeyType →
        RSAKey.decode_key c data = .error .assertionFailed) := by
  refine ⟨fun e h => ?_, fun pn h => ?_, fun h => ?_⟩ <;>
    simp [RSAKey.decode_key, h]

/-- C7 witness: at the concrete collaborator, unparsable bytes re-raise the
provider's diagnostic text. -/
theorem decode_key_spec_witness :
    RSAKey.decode_key collabW []
      = .error (.sshException "Could not deserialize key data.") :=
  (decode_key_spec collabW []).1 "Could not deserialize key data." rfl

/-- C8: for a private-state key the signature message is exactly the
length-prefixed algorithm name followed by the length-prefixed provider
signature computed with PKCS#1 v1.5 over SHA-1, and nothing else. -/
theorem sign_ssh_data_spec (ps : ProviderKey → Bytes → Padding → HashAlg → Bytes)
    (k : RSAKey) (data : Bytes) (hpriv : k.can_sign = true)
    (hlen : (ps k.key data Padding.pkcs1v15 HashAlg.sha1).length < 2 ^ 32) :
    readString (RSAKey.sign_ssh_data ps k data)
      = some (sshRSA, addString (ps k.key data Padding.pkcs1v15 HashAlg.sha1))
    ∧ readString (addString (ps k.key data Padding.pkcs1v15 HashAlg.sha1))
      = some (ps k.key data Padding.pkcs1v15 HashAlg.sha1, []) := by
  constructor
  · rw [RSAKey.sign_ssh_data]
    exact readString_addString _ _ (by decide)
  · rw [← List.append_nil (addString (ps k.key data Padding.pkcs1v15 HashAlg.sha1))]
    exact readString_addString _ [] hlen

/-- C8 witness: a concrete private key and provider signature `[9, 9]`. -/
theorem sign_ssh_data_spec_witness :
    readString (RSAKey.sign_ssh_data (fun _ _ _ _ => [9, 9])
        (RSAKey.mk (.privKey ⟨65537, 201, 42⟩)) [3])
      = some (sshRSA, addString [9, 9])
    ∧ readString (addString [9, 9]) = some ([9, 9], []) :=
  sign_ssh_data_spec (fun _ _ _ _ => [9, 9])
    (RSAKey.mk (.privKey ⟨65537, 201, 42⟩)) [3] (by decide) (by decide)

/-- C9: when a pre-parsed message is supplied, raw data is ignored
entirely: the construction result is identical with and without it. -/
theorem init_ignores_data_when_msg_present (c : Collab) (m : Bytes)
    (d : Option Bytes) (f : Option String) (pw : Option Bytes)
    (k : Option ProviderKey) (fo : Option Nat) :
    RSAKey.init c (some m) d f pw k fo = RSAKey.init c (some m) none f pw k fo := by
  cases fo <;> cases f <;> cases d <;> rfl

/-- C10: `asbytes` depends only on the public identity: keys with equal
public numbers produce byte-identical encodings, so private material never
appears in or influences the wire encoding. -/
theorem asbytes_depends_only_on_public (k1 k2 : RSAKey)
    (h : k1.public_numbers = k2.public_numbers) :
    k1.asbytes = k2.asbytes := by
  simp [RSAKey.asbytes, h]

/-- C10 witness: a private key and a public-only key with the numbers
`(65537, 201)` encode identically. -/
theorem asbytes_depends_only_on_public_witness :
    (RSAKey.mk (.privKey ⟨65537, 201, 42⟩)).asbytes
      = (RSAKey.mk (.pubKey 65537 201)).asbytes :=
  asbytes_depends_only_on_public (RSAKey.mk (.privKey ⟨65537, 201, 42⟩))
    (RSAKey.mk (.pubKey 65537 201)) (by decide)

end Paramiko
